import Mathlib

/-
Verification of the PDB cleaning pipeline in src/PDB_processor.py.

The structural data model (Structure, Model, Chain, Residue) embeds the
Biopython hierarchy traversed by the script: a Structure is an ordered list
of Models, a Model an ordered list of Chains, a Chain a chain identifier with
an ordered list of Residues.  A Residue carries its residue name together
with its identifying key fields (sequence number and insertion code); atoms
are never inspected by the filtering code, so they are not modelled.

Each removal pass of the script iterates over a snapshot of a chain and
detaches every residue whose name satisfies the removal predicate; residue
identifiers are unique within a chain, so a pass is embedded as keeping
exactly the residues whose name fails that predicate, preserving order.
-/

namespace PDBProcessor

structure Residue where
  resname : String
  resseq : Int
  icode : String
deriving DecidableEq

structure Chain where
  id : String
  residues : List Residue
deriving DecidableEq

structure Model where
  chains : List Chain
deriving DecidableEq

structure Structure where
  models : List Model
deriving DecidableEq

/-- A full Model to Chain to Residue traversal that deletes from each chain
every residue whose name fails the keep predicate, as each removal pass of
the script does. -/
def filterChain (keep : Residue → Bool) (c : Chain) : Chain :=
  Chain.mk c.id (c.residues.filter keep)

/-- Lift of the per-chain pass to the whole structure. -/
def filterStructure (keep : Residue → Bool) (s : Structure) : Structure :=
  Structure.mk (s.models.map (fun m => Model.mk (m.chains.map (filterChain keep))))

/-- List of standard amino acids and common protonation variants
(aal_prot in the source, 29 names). -/
def aal_prot : List String :=
  ["ALA", "ARG", "ASN", "ASP", "CYS", "GLN", "GLU", "GLY", "HIS", "ILE",
   "LEU", "LYS", "MET", "PHE", "PRO", "SER", "THR", "TRP", "TYR", "VAL",
   "ASH", "GLH", "HIE", "HID", "HIP", "LYN", "CYX", "CYM", "TYM"]

/-- remove_water: detaches every residue named HOH (keeps the others). -/
def remove_water (s : Structure) : Structure :=
  filterStructure (fun residue => residue.resname != "HOH") s

/-- keep_only_protein: detaches every residue whose name is not in aal_prot. -/
def keep_only_protein (s : Structure) : Structure :=
  filterStructure (fun residue => aal_prot.contains residue.resname) s

/-- remove_heteroatoms: detaches every residue whose name is in hetatm_set. -/
def remove_heteroatoms (s : Structure) (hetatm_set : List String) : Structure :=
  filterStructure (fun residue => !(hetatm_set.contains residue.resname)) s

/-- get_residues: flattened traversal of the structure, pairing each residue
with the identifier of its owning chain (the resname and resnum entries of
the source dictionaries are recoverable from the residue itself). -/
def get_residues (s : Structure) : List (String × Residue) :=
  s.models.flatMap
    (fun m => m.chains.flatMap (fun c => c.residues.map (fun r => (c.id, r))))

/-- All residues of the structure in traversal order, without chain tags. -/
def allResidues (s : Structure) : List Residue :=
  s.models.flatMap (fun m => m.chains.flatMap (fun c => c.residues))

/-- The residues of a structure bearing a given name, in traversal order. -/
def residuesNamed (s : Structure) (n : String) : List Residue :=
  (allResidues s).filter (fun r => r.resname == n)

/-- The filtering portion of process_pdb (lines 106 to 114 of the source):
protein-only mode runs water removal, then the standard-residue filter, then
the exclusion-set pass; selective mode runs water removal only when its flag
is set and the exclusion-set pass only when the set is non-empty. -/
def process_structure (s : Structure) (hetatm_set : List String)
    (keep_protein_only remove_water_flag : Bool) : Structure :=
  if keep_protein_only then
    remove_heteroatoms (keep_only_protein (remove_water s)) hetatm_set
  else
    let s1 := if remove_water_flag then remove_water s else s
    if !hetatm_set.isEmpty then remove_heteroatoms s1 hetatm_set else s1

/-- The resolved command-line arguments of the script (argparse output):
input and output paths, the list passed to the hetatm option (default empty),
and the two boolean flags.  The remove_water flag carries the suffix f to
avoid clashing with the pass of the same name. -/
structure Args where
  input : String
  output : String
  hetatm : List String
  keep_protein_only : Bool
  remove_waterf : Bool
deriving DecidableEq

/-- validate_args: the three checks of the source, in order.  Each failing
check raises an exception whose message is returned here as the error value;
the filesystem test os.path.isfile is abstracted as the predicate isfile.
A falsy args.input or args.output is the empty string. -/
def validate_args (isfile : String → Bool) (args : Args) : Except String Unit :=
  if args.keep_protein_only && !args.hetatm.isEmpty then
    Except.error "Error: --keep-protein-only cannot be used together with --hetatm."
  else if args.input == "" || args.output == "" then
    Except.error "Error: Both --input and --output files must be specified."
  else if !(isfile args.input) then
    Except.error ("Error: Input file " ++ args.input ++ " not found.")
  else
    Except.ok ()

/-- Observable outcome of one run of main: the lines printed inside the
try/except block, the process exit status, and whether the parse and the
save of process_pdb were reached. -/
structure MainResult where
  printed : List String
  exitCode : Nat
  parseCalled : Bool
  saveCalled : Bool
deriving DecidableEq

/-- The try/except body of main together with process_pdb.  Parsing and
saving are abstracted as fallible operations whose error value is the
exception message.  Every exception raised by validate_args, the parse,
or the save is caught by the except clause, which prints the message
prefixed with Error and falls through; main then returns normally, so the
process exit status is 0 on every path (the source never calls sys.exit). -/
def run_main (isfile : String → Bool)
    (parsePDB : String → Except String Structure)
    (savePDB : String → Structure → Except String Unit)
    (args : Args) : MainResult :=
  match validate_args isfile args with
  | Except.error e => MainResult.mk ["Error: " ++ e] 0 false false
  | Except.ok _ =>
    match parsePDB args.input with
    | Except.error e => MainResult.mk ["Error: " ++ e] 0 true false
    | Except.ok st =>
      let cleaned := process_structure st args.hetatm args.keep_protein_only args.remove_waterf
      match savePDB args.output cleaned with
      | Except.error e => MainResult.mk ["Error: " ++ e] 0 true true
      | Except.ok _ =>
        MainResult.mk
          ["Successfully processed PDB file " ++ args.input ++
           " and saved to " ++ args.output ++ "."] 0 true true

/-- One chain refines another when its identifier is unchanged and its
residue sequence is a subsequence of the original one. -/
def chainKept (c c2 : Chain) : Prop :=
  c2.id = c.id ∧ List.Sublist c2.residues c.residues

/-- A structure refines another when models correspond one to one and, within
each model, chains correspond one to one under chainKept: filtering only
deletes residues, never reorders chains or residues. -/
def onlyDeletes (s s2 : Structure) : Prop :=
  List.Forall₂ (fun m m2 => List.Forall₂ chainKept m.chains m2.chains) s.models s2.models

/-- The chain identifiers of the structure, chain order kept, model by model. -/
def chainIds (s : Structure) : List (List String) :=
  s.models.map (fun m => m.chains.map Chain.id)

lemma filterChain_filterChain (p q : Residue → Bool) (c : Chain) :
    filterChain p (filterChain q c) = filterChain (fun r => p r && q r) c := by
  simp [filterChain, List.filter_filter]

lemma filterStructure_filterStructure (p q : Residue → Bool) (s : Structure) :
    filterStructure p (filterStructure q s) = filterStructure (fun r => p r && q r) s := by
  simp [filterStructure, List.map_map, Function.comp_def, filterChain_filterChain]

lemma allResidues_filterStructure (p : Residue → Bool) (s : Structure) :
    allResidues (filterStructure p s) = (allResidues s).filter p := by
  simp [allResidues, filterStructure, filterChain, List.filter_flatMap, List.flatMap_map]

lemma filterStructure_onlyDeletes (p : Residue → Bool) (s : Structure) :
    onlyDeletes s (filterStructure p s) := by
  unfold onlyDeletes filterStructure
  refine List.forall₂_map_right_iff.mpr (List.forall₂_same.mpr (fun m _ => ?_))
  refine List.forall₂_map_right_iff.mpr (List.forall₂_same.mpr (fun c _ => ?_))
  exact ⟨rfl, List.filter_sublist c.residues⟩

lemma chainIds_filterStructure (p : Residue → Bool) (s : Structure) :
    chainIds (filterStructure p s) = chainIds s := by
  simp [chainIds, filterStructure, filterChain, List.map_map, Function.comp_def]

/-- C9: water removal is idempotent: a second pass of remove_water finds no
residue named HOH left to detach. -/
theorem C9_remove_water_idempotent (s : Structure) :
    remove_water (remove_water s) = remove_water s := by
  unfold remove_water
  rw [filterStructure_filterStructure]
  congr 1
  funext r
  exact Bool.and_self _

/-- C4: the water pass and the exclusion-set pass commute: each residue is
kept exactly when its name is neither HOH nor a member of the exclusion set,
whichever pass runs first. -/
theorem C4_water_hetero_commute (s : Structure) (hetatm_set : List String) :
    remove_water (remove_heteroatoms s hetatm_set) =
      remove_heteroatoms (remove_water s) hetatm_set := by
  unfold remove_water remove_heteroatoms
  rw [filterStructure_filterStructure, filterStructure_filterStructure]
  congr 1
  funext r
  exact Bool.and_comm _ _

/-- C7: each of the three removal passes only deletes residues: chain order
within each model is unchanged, every chain keeps its identifier, and each
surviving residue sequence is a subsequence of the original one. -/
theorem C7_passes_only_delete (s : Structure) (hetatm_set : List String) :
    onlyDeletes s (remove_water s) ∧ onlyDeletes s (keep_only_protein s) ∧
      onlyDeletes s (remove_heteroatoms s hetatm_set) :=
  ⟨filterStructure_onlyDeletes _ s, filterStructure_onlyDeletes _ s,
    filterStructure_onlyDeletes _ s⟩

/-- C8: no removal pass deletes a chain entity (the chain identifier lists
are unchanged), and a chain consisting solely of water, fed through
remove_water, is retained as an empty chain. -/
theorem C8_empty_chain_retention (s : Structure) (hetatm_set : List String) (c : Chain)
    (hc : ∀ r ∈ c.residues, r.resname = "HOH") :
    chainIds (remove_water s) = chainIds s ∧
    chainIds (keep_only_protein s) = chainIds s ∧
    chainIds (remove_heteroatoms s hetatm_set) = chainIds s ∧
    remove_water (Structure.mk [Model.mk [c]]) =
      Structure.mk [Model.mk [Chain.mk c.id []]] := by
  refine ⟨chainIds_filterStructure _ s, chainIds_filterStructure _ s,
    chainIds_filterStructure _ s, ?_⟩
  have h : c.residues.filter (fun residue => residue.resname != "HOH") = [] :=
    List.filter_eq_nil_iff.mpr (fun r hr => by simp [hc r hr])
  simp [remove_water, filterStructure, filterChain, h]

/-- A one-residue all-water chain used as concrete input. -/
def waterChain : Chain :=
  Chain.mk "W" [Residue.mk "HOH" 1 "", Residue.mk "HOH" 2 ""]

/-- A one-chain, one-ALA-residue structure used as concrete input. -/
def alaStructure : Structure :=
  Structure.mk [Model.mk [Chain.mk "A" [Residue.mk "ALA" 1 ""]]]

/-- Witness for C8 at a concrete all-water chain and structure. -/
theorem C8_empty_chain_retention_witness :
    (∀ r ∈ waterChain.residues, r.resname = "HOH") ∧
    (chainIds (remove_water alaStructure) = chainIds alaStructure ∧
     chainIds (keep_only_protein alaStructure) = chainIds alaStructure ∧
     chainIds (remove_heteroatoms alaStructure ["PO4"]) = chainIds alaStructure ∧
     remove_water (Structure.mk [Model.mk [waterChain]]) =
       Structure.mk [Model.mk [Chain.mk waterChain.id []]]) :=
  ⟨by decide, C8_empty_chain_retention alaStructure ["PO4"] waterChain (by decide)⟩

lemma snd_mem_allResidues {s : Structure} {e : String × Residue}
    (h : e ∈ get_residues s) : e.2 ∈ allResidues s := by
  simp only [get_residues, List.mem_flatMap, List.mem_map] at h
  obtain ⟨m, hm, c, hc, r, hr, he⟩ := h
  subst he
  simp only [allResidues, List.mem_flatMap]
  exact ⟨m, hm, c, hc, hr⟩

lemma keep_of_mem_get_residues (p : Residue → Bool) {s : Structure} {e : String × Residue}
    (h : e ∈ get_residues (filterStructure p s)) : p e.2 = true := by
  have h2 := snd_mem_allResidues h
  rw [allResidues_filterStructure] at h2
  exact (List.mem_filter.mp h2).2

lemma residuesNamed_filterStructure (p : Residue → Bool) (s : Structure) (n : String) :
    residuesNamed (filterStructure p s) n =
      (allResidues s).filter (fun r => (r.resname == n) && p r) := by
  rw [residuesNamed, allResidues_filterStructure, List.filter_filter]

lemma residuesNamed_filter_nil (p : Residue → Bool) (s : Structure) (n : String)
    (hfalse : ∀ r : Residue, r.resname = n → p r = false) :
    residuesNamed (filterStructure p s) n = [] := by
  rw [residuesNamed_filterStructure]
  refine List.filter_eq_nil_iff.mpr (fun r _ => ?_)
  by_cases hr : r.resname = n
  · simp [hr, hfalse r hr]
  · simp [hr]

lemma residuesNamed_filter_keep (p : Residue → Bool) (s : Structure) (n : String)
    (htrue : ∀ r : Residue, r.resname = n → p r = true) :
    residuesNamed (filterStructure p s) n = residuesNamed s n := by
  rw [residuesNamed_filterStructure, residuesNamed]
  refine List.filter_congr (fun r _ => ?_)
  by_cases hr : r.resname = n
  · simp [hr, htrue r hr]
  · simp [hr]

lemma process_protein_only (s : Structure) (hset : List String) (w : Bool) :
    process_structure s hset true w =
      filterStructure (fun r => !(hset.contains r.resname) &&
        aal_prot.contains r.resname && (r.resname != "HOH")) s := by
  have h1 : process_structure s hset true w =
      remove_heteroatoms (keep_only_protein (remove_water s)) hset := by
    simp [process_structure]
  rw [h1]
  unfold remove_heteroatoms keep_only_protein remove_water
  rw [filterStructure_filterStructure, filterStructure_filterStructure]

/-- C3: after protein-only filtering, every residue remaining anywhere in the
structure has a name in the 29-name standard set, and no residue named HOH
remains, whatever the input structure and exclusion set were. -/
theorem C3_protein_only_standard (s : Structure) (hset : List String) (w : Bool) :
    ∀ e ∈ get_residues (process_structure s hset true w),
      e.2.resname ∈ aal_prot ∧ e.2.resname ≠ "HOH" := by
  intro e he
  rw [process_protein_only] at he
  have hp := keep_of_mem_get_residues _ he
  simp only [Bool.and_eq_true, bne_iff_ne, ne_eq] at hp
  obtain ⟨⟨-, hstd⟩, hne⟩ := hp
  exact ⟨List.mem_of_elem_eq_true hstd, hne⟩

/-- Witness for C3 at a concrete one-ALA structure. -/
theorem C3_protein_only_standard_witness :
    ("A", Residue.mk "ALA" 1 "") ∈ get_residues (process_structure alaStructure [] true false) ∧
    ((Residue.mk "ALA" 1 "").resname ∈ aal_prot ∧ (Residue.mk "ALA" 1 "").resname ≠ "HOH") :=
  ⟨by decide,
   C3_protein_only_standard alaStructure [] false ("A", Residue.mk "ALA" 1 "") (by decide)⟩

/-- Counterexample to C1 as stated: with the exclusion set naming the
standard residue ALA, the protein-only pipeline deletes the ALA residue that
water removal followed by non-standard removal keeps, so the exclusion-set
pass is not subsumed for every caller-supplied exclusion set. -/
theorem C1_counterexample :
    ¬ (process_structure alaStructure ["ALA"] true false =
        keep_only_protein (remove_water alaStructure)) := by decide

/-- C1 amended: for every exclusion set that names only heteroatoms (no
member of the 29-name standard set), the protein-only pipeline equals water
removal followed by non-standard removal: the exclusion-set pass is subsumed. -/
theorem C1_protein_only_subsumes_hetero (s : Structure) (hset : List String) (w : Bool)
    (hdisj : ∀ n ∈ hset, n ∉ aal_prot) :
    process_structure s hset true w = keep_only_protein (remove_water s) := by
  have h1 : process_structure s hset true w =
      remove_heteroatoms (keep_only_protein (remove_water s)) hset := by
    simp [process_structure]
  rw [h1]
  unfold remove_heteroatoms keep_only_protein remove_water
  rw [filterStructure_filterStructure]
  congr 1
  funext r
  by_cases hr : r.resname ∈ aal_prot
  · have hnot : r.resname ∉ hset := fun hmem => hdisj _ hmem hr
    have h2 : hset.contains r.resname = false := by simp [List.contains, hnot]
    simp only [h2, Bool.not_false, Bool.true_and]
  · have h3 : aal_prot.contains r.resname = false := by simp [List.contains, hr]
    simp only [h3, Bool.and_false]

/-- Witness for the amended C1 at a concrete heteroatom-only exclusion set. -/
theorem C1_protein_only_subsumes_hetero_witness :
    (∀ n ∈ ["PO4"], n ∉ aal_prot) ∧
    process_structure alaStructure ["PO4"] true false =
      keep_only_protein (remove_water alaStructure) :=
  ⟨by decide, C1_protein_only_subsumes_hetero alaStructure ["PO4"] false (by decide)⟩

/-- A structure holding one standard residue, one water, and one PO4. -/
def mixedStructure : Structure :=
  Structure.mk [Model.mk [Chain.mk "A"
    [Residue.mk "ALA" 1 "", Residue.mk "HOH" 2 "", Residue.mk "PO4" 3 ""]]]

/-- C6: selective-mode independence.  With only the water flag, every HOH
residue is gone and the residues of the named heteroatom survive unchanged;
with only that name in the exclusion set, its residues are gone and water
survives unchanged; with both, neither survives. -/
theorem C6_selective_independence (s : Structure) (h : String) (hne : h ≠ "HOH")
    (_hwater : residuesNamed s "HOH" ≠ []) (_hhet : residuesNamed s h ≠ []) :
    (residuesNamed (process_structure s [] false true) "HOH" = [] ∧
     residuesNamed (process_structure s [] false true) h = residuesNamed s h) ∧
    (residuesNamed (process_structure s [h] false false) h = [] ∧
     residuesNamed (process_structure s [h] false false) "HOH" = residuesNamed s "HOH") ∧
    (residuesNamed (process_structure s [h] false true) h = [] ∧
     residuesNamed (process_structure s [h] false true) "HOH" = []) := by
  have e1 : process_structure s [] false true = remove_water s := rfl
  have e2 : process_structure s [h] false false = remove_heteroatoms s [h] := rfl
  have e3 : process_structure s [h] false true =
      remove_heteroatoms (remove_water s) [h] := rfl
  rw [e1, e2, e3]
  unfold remove_water remove_heteroatoms
  rw [filterStructure_filterStructure]
  refine ⟨⟨?_, ?_⟩, ⟨?_, ?_⟩, ⟨?_, ?_⟩⟩
  · exact residuesNamed_filter_nil _ s _ (fun r hr => by simp [hr])
  · exact residuesNamed_filter_keep _ s _ (fun r hr => by simp [hr, hne])
  · exact residuesNamed_filter_nil _ s _ (fun r hr => by simp [hr, List.contains])
  · exact residuesNamed_filter_keep _ s _
      (fun r hr => by simp [hr, List.contains, Ne.symm hne])
  · exact residuesNamed_filter_nil _ s _ (fun r hr => by simp [hr, List.contains])
  · exact residuesNamed_filter_nil _ s _ (fun r hr => by simp [hr])

/-- Witness for C6 at a concrete structure holding water and PO4. -/
theorem C6_selective_independence_witness :
    ("PO4" ≠ "HOH" ∧ residuesNamed mixedStructure "HOH" ≠ [] ∧
      residuesNamed mixedStructure "PO4" ≠ []) ∧
    ((residuesNamed (process_structure mixedStructure [] false true) "HOH" = [] ∧
      residuesNamed (process_structure mixedStructure [] false true) "PO4" =
        residuesNamed mixedStructure "PO4") ∧
     (residuesNamed (process_structure mixedStructure ["PO4"] false false) "PO4" = [] ∧
      residuesNamed (process_structure mixedStructure ["PO4"] false false) "HOH" =
        residuesNamed mixedStructure "HOH") ∧
     (residuesNamed (process_structure mixedStructure ["PO4"] false true) "PO4" = [] ∧
      residuesNamed (process_structure mixedStructure ["PO4"] false true) "HOH" = [])) :=
  ⟨⟨by decide, by decide, by decide⟩,
   C6_selective_independence mixedStructure "PO4" (by decide) (by decide) (by decide)⟩

/-- C10: in selective mode with the water flag unset, an exclusion set that
contains HOH removes every water residue through the exclusion-set pass. -/
theorem C10_exclusion_set_removes_water (s : Structure) (hset : List String)
    (hmem : "HOH" ∈ hset) :
    residuesNamed (process_structure s hset false false) "HOH" = [] := by
  cases hset with
  | nil => simp at hmem
  | cons a t =>
    have e : process_structure s (a :: t) false false = remove_heteroatoms s (a :: t) := rfl
    rw [e]
    unfold remove_heteroatoms
    refine residuesNamed_filter_nil _ s _ (fun r hr => ?_)
    have hc : (a :: t).contains "HOH" = true := List.elem_eq_true_of_mem hmem
    rw [hr, hc]
    rfl

/-- Witness for C10 at a concrete structure and the exclusion set [HOH]. -/
theorem C10_exclusion_set_removes_water_witness :
    "HOH" ∈ ["HOH"] ∧
    residuesNamed (process_structure mixedStructure ["HOH"] false false) "HOH" = [] :=
  ⟨by decide, C10_exclusion_set_removes_water mixedStructure ["HOH"] (by decide)⟩

/-- The conflicting invocation of the mutual-exclusion scenario. -/
def conflictingArgs : Args := Args.mk "in.pdb" "out.pdb" ["PO4"] true false

/-- An invocation with no flags and an existing input path expected. -/
def plainArgs : Args := Args.mk "in.pdb" "out.pdb" [] false false

/-- A filesystem on which every path is a file. -/
def allFiles : String → Bool := fun _ => true

/-- A filesystem on which no path is a file. -/
def noFiles : String → Bool := fun _ => false

/-- A parse that always succeeds with the one-ALA structure. -/
def parseAla : String → Except String Structure := fun _ => Except.ok alaStructure

/-- A save that always succeeds. -/
def saveOk : String → Structure → Except String Unit := fun _ _ => Except.ok ()

/-- Counterexample to C2 as stated: the invocation with both mutually
exclusive flags fails validation and prints an error message, yet the
process exit status is 0, because main catches every exception, prints, and
returns normally without calling sys.exit; so a failing run does not
terminate with a non-zero exit status. -/
theorem C2_counterexample :
    (∃ e, validate_args allFiles conflictingArgs = Except.error e) ∧
    (run_main allFiles parseAla saveOk conflictingArgs).printed =
      ["Error: Error: --keep-protein-only cannot be used together with --hetatm."] ∧
    (run_main allFiles parseAla saveOk conflictingArgs).exitCode = 0 :=
  ⟨⟨"Error: --keep-protein-only cannot be used together with --hetatm.", rfl⟩,
   by decide, by decide⟩

/-- C2 amended: every invocation that fails validation, parsing, or saving
prints a single error-message line and terminates normally with exit status
zero (no raw fault, but not a non-zero status either). -/
theorem C2_failures_print_and_exit_zero (isfile : String → Bool)
    (parsePDB : String → Except String Structure)
    (savePDB : String → Structure → Except String Unit) (args : Args)
    (hfail : (∃ e, validate_args isfile args = Except.error e) ∨
      (∃ e, parsePDB args.input = Except.error e) ∨
      (∃ st e, parsePDB args.input = Except.ok st ∧
        savePDB args.output (process_structure st args.hetatm args.keep_protein_only
          args.remove_waterf) = Except.error e)) :
    (∃ m, (run_main isfile parsePDB savePDB args).printed = ["Error: " ++ m]) ∧
    (run_main isfile parsePDB savePDB args).exitCode = 0 := by
  rcases hval : validate_args isfile args with e | u
  · refine ⟨⟨e, ?_⟩, ?_⟩ <;> simp [run_main, hval]
  · rcases hp : parsePDB args.input with e | st
    · refine ⟨⟨e, ?_⟩, ?_⟩ <;> simp [run_main, hval, hp]
    · rcases hs : savePDB args.output (process_structure st args.hetatm
          args.keep_protein_only args.remove_waterf) with e | u2
      · refine ⟨⟨e, ?_⟩, ?_⟩ <;> simp [run_main, hval, hp, hs]
      · exfalso
        rcases hfail with ⟨e, h⟩ | ⟨e, h⟩ | ⟨st2, e, hst2, h⟩
        · rw [hval] at h
          exact Except.noConfusion h
        · rw [hp] at h
          exact Except.noConfusion h
        · rw [hp] at hst2
          cases hst2
          rw [hs] at h
          exact Except.noConfusion h

/-- Witness for the amended C2: a missing input file prints an error and
exits with status zero. -/
theorem C2_failures_print_and_exit_zero_witness :
    ((∃ e, validate_args noFiles plainArgs = Except.error e) ∨
      (∃ e, parseAla plainArgs.input = Except.error e) ∨
      (∃ st e, parseAla plainArgs.input = Except.ok st ∧
        saveOk plainArgs.output (process_structure st plainArgs.hetatm
          plainArgs.keep_protein_only plainArgs.remove_waterf) = Except.error e)) ∧
    ((∃ m, (run_main noFiles parseAla saveOk plainArgs).printed = ["Error: " ++ m]) ∧
      (run_main noFiles parseAla saveOk plainArgs).exitCode = 0) :=
  ⟨Or.inl ⟨"Error: Input file in.pdb not found.", rfl⟩,
   C2_failures_print_and_exit_zero noFiles parseAla saveOk plainArgs
     (Or.inl ⟨"Error: Input file in.pdb not found.", rfl⟩)⟩

/-- C5: supplying the protein-only flag together with a non-empty exclusion
set fails validation with the mutual-exclusion message; the run never
reaches the parse or the save, so no output file is written. -/
theorem C5_mutual_exclusion (isfile : String → Bool)
    (parsePDB : String → Except String Structure)
    (savePDB : String → Structure → Except String Unit) (args : Args)
    (hk : args.keep_protein_only = true) (hne : args.hetatm ≠ []) :
    validate_args isfile args =
      Except.error "Error: --keep-protein-only cannot be used together with --hetatm." ∧
    (run_main isfile parsePDB savePDB args).parseCalled = false ∧
    (run_main isfile parsePDB savePDB args).saveCalled = false ∧
    (∃ m, (run_main isfile parsePDB savePDB args).printed = ["Error: " ++ m]) := by
  have hcond : (args.keep_protein_only && !args.hetatm.isEmpty) = true := by
    rw [hk]
    cases h : args.hetatm with
    | nil => exact absurd h hne
    | cons a t => rfl
  have hval : validate_args isfile args =
      Except.error "Error: --keep-protein-only cannot be used together with --hetatm." := by
    unfold validate_args
    rw [if_pos hcond]
  refine ⟨hval, ?_, ?_, ⟨"Error: --keep-protein-only cannot be used together with --hetatm.", ?_⟩⟩ <;>
    simp [run_main, hval]

/-- Witness for C5 at the concrete conflicting invocation. -/
theorem C5_mutual_exclusion_witness :
    (conflictingArgs.keep_protein_only = true ∧ conflictingArgs.hetatm ≠ []) ∧
    (validate_args allFiles conflictingArgs =
      Except.error "Error: --keep-protein-only cannot be used together with --hetatm." ∧
     (run_main allFiles parseAla saveOk conflictingArgs).parseCalled = false ∧
     (run_main allFiles parseAla saveOk conflictingArgs).saveCalled = false ∧
     (∃ m, (run_main allFiles parseAla saveOk conflictingArgs).printed = ["Error: " ++ m])) :=
  ⟨⟨rfl, by decide⟩,
   C5_mutual_exclusion allFiles parseAla saveOk conflictingArgs rfl (by decide)⟩

end PDBProcessor
